import Mathlib

/-!
Shallow embedding of the time-series ingestion, alignment and trend
classification pipeline of the jq-api repository (the route implementations
under src/app/api/macro and their sibling generations in src/unnamed).
JavaScript numbers are modelled as exact rationals (`ℚ`); where a claim
depends on `NaN` propagation, numbers are modelled by `Option ℚ` with `none`
playing the role of `NaN`.  Strings are processed at the character-list level;
the JavaScript-specific character classes (regex `\s`, `String.prototype.trim`)
are reproduced by explicit code-point predicates.
-/

namespace JqApi

/-- Code points treated as whitespace by JavaScript `String.prototype.trim` and
by the regex class `\s` (the two sets coincide): TAB, LF, VT, FF, CR, SPACE,
NBSP, Ogham space mark, U+2000–U+200A, LS, PS, NNBSP, MMSP, ideographic space
and the BOM. -/
def isJsWhitespace (c : Char) : Bool :=
  decide (c.toNat = 0x09 ∨ c.toNat = 0x0A ∨ c.toNat = 0x0B ∨ c.toNat = 0x0C ∨
    c.toNat = 0x0D ∨ c.toNat = 0x20 ∨ c.toNat = 0xA0 ∨ c.toNat = 0x1680 ∨
    (0x2000 ≤ c.toNat ∧ c.toNat ≤ 0x200A) ∨ c.toNat = 0x2028 ∨
    c.toNat = 0x2029 ∨ c.toNat = 0x202F ∨ c.toNat = 0x205F ∨
    c.toNat = 0x3000 ∨ c.toNat = 0xFEFF)

/-- Regex `\d`: the ASCII digits. -/
def isDigitC (c : Char) : Bool := decide (0x30 ≤ c.toNat ∧ c.toNat ≤ 0x39)

/-- JavaScript `String.prototype.trim` on the underlying character list. -/
def jsTrimL (l : List Char) : List Char :=
  ((l.dropWhile isJsWhitespace).reverse.dropWhile isJsWhitespace).reverse

/-- JavaScript `String.prototype.trim`. -/
def jsTrim (s : String) : String := String.mk (jsTrimL s.data)

/-- Substring test: JavaScript `String.prototype.includes`, which is also how
the source's literal-pattern `regex.test(...)` calls behave. -/
def strContainsAux (pat : List Char) : List Char → Bool
  | [] => pat.isEmpty
  | c :: rest => pat.isPrefixOf (c :: rest) || strContainsAux pat rest

/-- Whether `pat` occurs as a contiguous substring of `s`. -/
def strContains (s pat : String) : Bool := strContainsAux pat.data s.data

/-- Maximal run of ASCII digits, the way the anchored regexes of the source
consume a `\d{...}` group that is followed by a non-digit or the end. -/
def spanDigits : List Char → List Char × List Char
  | [] => ([], [])
  | c :: cs =>
    if isDigitC c then
      let p := spanDigits cs
      (c :: p.1, p.2)
    else ([], c :: cs)

/-- Numeric value of a digit string, most significant digit first. -/
def digitsVal (ds : List Char) : ℕ := ds.foldl (fun a c => 10 * a + (c.toNat - 0x30)) 0

/-- Decimal significand of the ECMAScript string-numeric-literal grammar:
`digits [. [digits]]` or `. digits`; returns the value and the unconsumed rest.
The hexadecimal/octal/binary literal forms never occur in this data domain and
are not modelled (such inputs fall out as `NaN`). -/
def parseDecCore (cs : List Char) : Option (ℚ × List Char) :=
  let ip := spanDigits cs
  match ip.2 with
  | '.' :: r2 =>
    let fp := spanDigits r2
    if ip.1.isEmpty && fp.1.isEmpty then none
    else some ((digitsVal ip.1 : ℚ) + (digitsVal fp.1 : ℚ) / ((10 : ℚ) ^ fp.1.length), fp.2)
  | _ => if ip.1.isEmpty then none else some ((digitsVal ip.1 : ℚ), ip.2)

/-- Optional exponent part `(e|E) [+|-] digits`; any other trailing characters
make the whole literal `NaN`. -/
def applyExp (q : ℚ) : List Char → Option ℚ
  | [] => some q
  | c :: rest =>
    if c = 'e' ∨ c = 'E' then
      let sr : Int × List Char :=
        match rest with
        | '+' :: r => (1, r)
        | '-' :: r => (-1, r)
        | r => (1, r)
      let ds := spanDigits sr.2
      if ds.1.isEmpty ∨ ¬ ds.2.isEmpty then none
      else some (q * (10 : ℚ) ^ (sr.1 * (digitsVal ds.1 : Int)))
    else none

/-- JavaScript `Number(<string>)` on an already trimmed string, composed with
the `Number.isFinite` filter used everywhere in the source: `none` stands for
`NaN` or `±Infinity`.  The empty (trimmed) string converts to `0`. -/
def jsStrToNumCore : List Char → Option ℚ
  | [] => some 0
  | cs =>
    let sb : ℚ × List Char :=
      match cs with
      | '+' :: r => (1, r)
      | '-' :: r => (-1, r)
      | r => (1, r)
    if sb.2 = "Infinity".data then none
    else
      match parseDecCore sb.2 with
      | some qr => (applyExp qr.1 qr.2).map (fun v => sb.1 * v)
      | none => none

/-- The source's `safeNumber`: `Number(String(s).trim())`, with non-finite
results mapped to `null` (`none`). -/
def safeNumber (s : String) : Option ℚ := jsStrToNumCore (jsTrimL s.data)

/-- Left-pad to two characters with zeros: `String.prototype.padStart(2, "0")`
as the source applies it to the 1–2 digit month and day groups. -/
def padStart2 (s : String) : String :=
  String.mk (List.replicate (2 - s.data.length) '0' ++ s.data)

/-- Matcher for the anchored pattern `^(\d{4})<sep>(\d{1,2})<sep>(\d{1,2})$`. -/
def matchSepYMD (sep : Char) (cs : List Char) : Option (String × String × String) :=
  let y := spanDigits cs
  if y.1.length = 4 then
    match y.2 with
    | c :: r2 =>
      if c = sep then
        let m := spanDigits r2
        if 1 ≤ m.1.length ∧ m.1.length ≤ 2 then
          match m.2 with
          | c2 :: r4 =>
            if c2 = sep then
              let d := spanDigits r4
              if (1 ≤ d.1.length ∧ d.1.length ≤ 2) ∧ d.2 = [] then
                some (String.mk y.1, String.mk m.1, String.mk d.1)
              else none
            else none
          | [] => none
        else none
      else none
    | [] => none
  else none

/-- The source's `parseDateToISO` (src/app/api/macro/rate-diff/route.ts,
lines 16–30): trim, then try the three anchored patterns `YYYY-M-D`,
`YYYY/M/D`, `YYYY.M.D` in order, zero-padding month and day on output.  No
other pattern is recognised (in particular there is no era-calendar branch)
and no numeric range validation is performed. -/
def parseDateToISO (s : String) : Option String :=
  let t := jsTrimL s.data
  if t.isEmpty then none
  else
    match (matchSepYMD '-' t).orElse
        (fun _ => (matchSepYMD '/' t).orElse (fun _ => matchSepYMD '.' t)) with
    | some ymd => some (ymd.1 ++ "-" ++ padStart2 ymd.2.1 ++ "-" ++ padStart2 ymd.2.2)
    | none => none

/-- Version tag of the rate-diff route generation under verification. -/
def VERSION : String := "mof-header-skip-v4"

/-- Split on a single-character separator: JavaScript `String.prototype.split`
with a one-character separator string, which is how the source splits on `","`
and on `"\t"`. -/
def splitOnCharL (sep : Char) : List Char → List (List Char)
  | [] => [[]]
  | c :: cs =>
    let r := splitOnCharL sep cs
    if c = sep then [] :: r
    else
      match r with
      | h :: t => (c :: h) :: t
      | [] => [[c]]

/-- The source's `splitRow`: strip a leading BOM, trim, fold full-width commas
(U+FF0C) to ASCII commas, split on commas — falling back to a tab split when
the comma split yields at most one field — and trim every field. -/
def splitRow (line : String) : List String :=
  let l0 :=
    match line.data with
    | c :: rest => if c.toNat = 0xFEFF then rest else line.data
    | [] => []
  let l1 := jsTrimL l0
  let l2 := l1.map (fun c => if c.toNat = 0xFF0C then ',' else c)
  let cols := (splitOnCharL ',' l2).map jsTrimL
  let cols2 := if cols.length ≤ 1 then (splitOnCharL '\t' l2).map jsTrimL else cols
  cols2.map String.mk

/-- The source's `normalizeHeader`: ideographic spaces to ASCII spaces, all
regex-`\s` whitespace removed, then lowercasing (`toLowerCase` only affects the
ASCII letters occurring in this source's header vocabulary). -/
def normalizeHeader (s : String) : String :=
  let l1 := s.data.map (fun c => if c.toNat = 0x3000 then ' ' else c)
  let l2 := l1.filter (fun c => !isJsWhitespace c)
  String.mk (l2.map Char.toLower)

/-- The source's `isLikelyMetaLine` predicate for title/unit/date-stamp lines. -/
def isLikelyMetaLine (line : String) : Bool :=
  strContains line "国債金利情報" || strContains line "単位" || strContains line "（単位" ||
  (strContains line "月" && strContains line "令和") ||
  (match line.data with
   | c :: _ => c = '#'
   | [] => false)

/-- One normalized header cell recognised as the 10-year tenor column. -/
def tenYearHeader (h : String) : Bool :=
  h == "10年" || h == "10" || strContains h "10年" || strContains h "10y" ||
  strContains h "10year"

/-- The source's `hasTenYear`. -/
def hasTenYear (cols : List String) : Bool :=
  (cols.map normalizeHeader).any tenYearHeader

/-- One normalized header cell recognised as the date column. -/
def dateHeader (h : String) : Bool :=
  h == "日付" || strContains h "日付" || h == "date" || strContains h "年月日" ||
  strContains h "年月"

/-- JavaScript `findIndex` result: the index, or `-1` when there is none. -/
def idxOrNeg (o : Option ℕ) : Int :=
  match o with
  | some i => (i : Int)
  | none => -1

/-- The source's `findDateCol`. -/
def findDateCol (cols : List String) : Int :=
  idxOrNeg ((cols.map normalizeHeader).findIdx? dateHeader)

/-- The source's `find10yCol`: five synonym patterns, each tried over the whole
header row before the next one is considered. -/
def find10yCol (headers : List String) : Int :=
  let norm := headers.map normalizeHeader
  match norm.findIdx? (fun h => h == "10年") with
  | some i => (i : Int)
  | none =>
    match norm.findIdx? (fun h => h == "10") with
    | some i => (i : Int)
    | none =>
      match norm.findIdx? (fun h => strContains h "10年") with
      | some i => (i : Int)
      | none =>
        match norm.findIdx? (fun h => strContains h "10y") with
        | some i => (i : Int)
        | none =>
          match norm.findIdx? (fun h => strContains h "10year") with
          | some i => (i : Int)
          | none => -1

/-- JavaScript indexing `l[i] ?? ""`: out-of-range (or negative) indices give
`undefined`, which the source coalesces to the empty string. -/
def jsAt (l : List String) (i : Int) : String :=
  if 0 ≤ i then l.getD i.toNat "" else ""

/-- Result record of the source's `detectHeader`. -/
structure HeaderResult where
  headerIndex : ℕ
  headers : List String
  dateIdx : Int
  tenIdx : Int
deriving Repr, DecidableEq

/-- Strategy 1 of `detectHeader`, scanning for a direct header row: a
non-metadata line with at least 6 parsed columns containing both a recognised
date header and a recognised 10-year header. -/
def strat1 : ℕ → List String → Option HeaderResult
  | _, [] => none
  | i, raw :: rest =>
    if isLikelyMetaLine raw then strat1 (i + 1) rest
    else
      let cols := splitRow raw
      if cols.length < 6 then strat1 (i + 1) rest
      else
        let dateIdx := findDateCol cols
        if 0 ≤ dateIdx ∧ hasTenYear cols then some ⟨i, cols, dateIdx, find10yCol cols⟩
        else strat1 (i + 1) rest

/-- One candidate step of strategy 2: a non-metadata line with ≥ 6 columns
containing the 10-year marker, whose immediately following line parses as a
date (first column, or the located date column); the date column index is then
fixed at 0. -/
def strat2At (i : ℕ) (raw next : String) : Option HeaderResult :=
  if isLikelyMetaLine raw then none
  else
    let cols := splitRow raw
    if cols.length < 6 then none
    else if ¬ hasTenYear cols then none
    else
      let nxt := splitRow next
      if 2 ≤ nxt.length then
        let d := (parseDateToISO (jsAt nxt 0)).orElse
          (fun _ => parseDateToISO (jsAt nxt (findDateCol nxt)))
        match d with
        | some _ =>
          let tenIdx := find10yCol cols
          if 0 ≤ tenIdx then some ⟨i, cols, 0, tenIdx⟩ else none
        | none => none
      else none

/-- Strategy 2 of `detectHeader` over the scan window (two-row header). -/
def strat2 : ℕ → List String → Option HeaderResult
  | _, [] => none
  | _, [_] => none
  | i, raw :: next :: rest =>
    match strat2At i raw next with
    | some r => some r
    | none => strat2 (i + 1) (next :: rest)

/-- One candidate step of strategy 3, at the line with index `iCur ≥ 1`: the
line has ≥ 6 columns, its first column parses as a date and at least 3 of its
following (up to 9) columns are numeric; the previous line is then taken as the
header, required to have ≥ 6 columns and a recognised 10-year column. -/
def strat3At (iCur : ℕ) (prev cur : String) : Option HeaderResult :=
  let cols := splitRow cur
  if cols.length < 6 then none
  else
    match parseDateToISO (jsAt cols 0) with
    | none => none
    | some _ =>
      let numericCount := (((cols.take (min cols.length 10)).drop 1).filterMap safeNumber).length
      if 3 ≤ numericCount then
        let hdr := splitRow prev
        let tenIdx := find10yCol hdr
        if 6 ≤ hdr.length ∧ 0 ≤ tenIdx then some ⟨iCur - 1, hdr, 0, tenIdx⟩ else none
      else none

/-- Strategy 3 of `detectHeader` over the scan window (header inferred from the
first data-looking row). -/
def strat3 : ℕ → List String → Option HeaderResult
  | _, [] => none
  | _, [_] => none
  | i, prev :: cur :: rest =>
    match strat3At i prev cur with
    | some r => some r
    | none => strat3 (i + 1) (cur :: rest)

/-- Diagnostic error message of `detectHeader`: the first 20 lines, joined with
the literal two-character sequence `\n` (as in the source's `join("\\n")`),
truncated to 800 characters. -/
def headDiag (lines : List String) : String :=
  let head := String.intercalate "\\n" (lines.take 20)
  "MOF CSV: header row not found. version=" ++ VERSION ++ ". head20=" ++
    String.mk (head.data.take 800)

/-- The source's `detectHeader` (src/app/api/macro/rate-diff/route.ts, lines
106–169): at most the first 200 lines are scanned; the three strategies are
tried in order with the first success winning; on total failure the diagnostic
with the first 20 lines is thrown. -/
def detectHeader (lines : List String) : Except String HeaderResult :=
  let scan := lines.take 200
  match strat1 0 scan with
  | some r => .ok r
  | none =>
    match strat2 0 scan with
    | some r => .ok r
    | none =>
      match strat3 1 scan with
      | some r => .ok r
      | none => .error (headDiag lines)

/-- Result record of the source's `calcTrend5`. -/
structure TrendResult where
  latest : ℚ
  prev5 : ℚ
  delta5 : ℚ
  avgDaily : ℚ
  consecutive : String
deriving Repr, DecidableEq

/-- The strict chain `arr[i-1] < arr[i]` over every adjacent pair, i.e. the
source's `every((v, i, arr) => i === 0 || arr[i-1] < v)`. -/
def chainLt : List ℚ → Bool
  | a :: b :: t => decide (a < b) && chainLt (b :: t)
  | _ => true

/-- The strict chain `arr[i-1] > arr[i]` over every adjacent pair. -/
def chainGt : List ℚ → Bool
  | a :: b :: t => decide (b < a) && chainGt (b :: t)
  | _ => true

/-- The source's `calcTrend5` (src/app/api/macro/rate-diff/route.ts lines
171–185, identical in src/unnamed/part_002 lines 158–174): requires at least 6
newest-first values, returns `delta5 = values[0] - values[5]`,
`avgDaily = delta5 / 5` and the 3-way `consecutive` classification. -/
def calcTrend5 (valuesNewestFirst : List ℚ) : Except String TrendResult :=
  if valuesNewestFirst.length < 6 then
    .error ("Need at least 6 points for 5D trend, got " ++ toString valuesNewestFirst.length)
  else
    let latest := valuesNewestFirst.getD 0 0
    let prev5 := valuesNewestFirst.getD 5 0
    let delta5 := latest - prev5
    let avgDaily := delta5 / 5
    let consecutive :=
      if chainLt valuesNewestFirst then "shrinking"
      else if chainGt valuesNewestFirst then "widening"
      else "mixed"
    .ok ⟨latest, prev5, delta5, avgDaily, consecutive⟩

/-- The spec's 3-way monotonicity enumeration. -/
inductive Monotonicity where
  | Increasing
  | Decreasing
  | Mixed
deriving Repr, DecidableEq

/-- Realization of the spec's monotonicity enum by the code's `consecutive`
strings, as pinned down by the spec's §8 test vectors (`trend([5,4,3,2,1,0]) ↦
Increasing`, `trend([0,1,2,3,4,5]) ↦ Decreasing`): the code's "widening"
realizes `Increasing`, "shrinking" realizes `Decreasing`, "mixed" realizes
`Mixed`. -/
def monoOfConsecutive (c : String) : Monotonicity :=
  if c == "widening" then .Increasing
  else if c == "shrinking" then .Decreasing
  else .Mixed

/-- A fetched data point: canonical date key and finite value. -/
structure Point where
  date : String
  value : ℚ
deriving Repr, DecidableEq

/-- Shared collection loop of the fetchers and the aligner: walk the input,
keep the rows `f` accepts, and stop as soon as `need` rows have been collected
(the JS pattern `out.push(...); if (out.length >= need) break;` — note the
check happens after the push). -/
def collectN {α β : Type} (f : α → Option β) (need : ℕ) : List α → ℕ → List β
  | [], _ => []
  | a :: as, cnt =>
    match f a with
    | none => collectN f need as cnt
    | some b => if need ≤ cnt + 1 then [b] else b :: collectN f need as (cnt + 1)

/-- One entry of the FRED `observations` array (both fields are strings in the
upstream JSON). -/
structure FredObs where
  date : String
  value : String
deriving Repr, DecidableEq

/-- Acceptance test of one FRED observation: keep it iff its value is finite. -/
def obsToPoint (o : FredObs) : Option Point :=
  (safeNumber o.value).map (fun v => ⟨o.date, v⟩)

/-- Pure core of the source's `fredLatestN` on the decoded `observations`
array: collect the finite-valued observations in payload order until `need`
are found; fail when fewer remain.  (The HTTP layer and the `sort_order=desc`
request parameter live outside the embedding: the code trusts, and never
checks, the ordering of the payload.) -/
def fredCore (seriesId : String) (obs : List FredObs) (need : ℕ) :
    Except String (List Point) :=
  let out := collectN obsToPoint need obs 0
  if out.length < need then
    .error ("Not enough valid observations for " ++ seriesId ++ " (need " ++
      toString need ++ ", got " ++ toString out.length ++ ")")
  else .ok out

/-- Split into lines on `\r?\n` (JS `csvText.split(/\r?\n/)`). -/
def splitLines (s : String) : List String :=
  (splitOnCharL '\n' s.data).map (fun l =>
    String.mk (match l.reverse with
      | '\r' :: t => t.reverse
      | _ => l))

/-- Line preprocessing of `mofLatestN_JP10Y`: trim each raw line and drop the
empty ones. -/
def mofLines (csvText : String) : List String :=
  ((splitLines csvText).map jsTrim).filter (fun l => 0 < l.data.length)

/-- Per-row parsing step of `mofLatestN_JP10Y`: a row yields a point when it
has enough columns, its date column parses, and its 10-year column holds a
finite number. -/
def rowToPoint (dateIdx tenIdx : Int) (row : String) : Option Point :=
  let cols := splitRow row
  if (cols.length : Int) ≤ max dateIdx tenIdx then none
  else
    match parseDateToISO (jsAt cols dateIdx) with
    | none => none
    | some iso => (safeNumber (jsAt cols tenIdx)).map (fun v => ⟨iso, v⟩)

/-- Pure core of the source's `mofLatestN_JP10Y` on the decoded CSV text:
detect the header, then walk the data rows from the bottom upward collecting
valid points until `need` are found. -/
def mofCore (csvText : String) (need : ℕ) : Except String (List Point) :=
  let lines := mofLines csvText
  match detectHeader lines with
  | .error e => .error e
  | .ok r =>
    if r.tenIdx < 0 then
      .error ("MOF CSV: 10Y column not found. version=" ++ VERSION ++
        ". headers=" ++ String.intercalate "|" r.headers)
    else
      let dataLines := lines.drop (r.headerIndex + 1)
      let out := collectN (rowToPoint r.dateIdx r.tenIdx) need dataLines.reverse 0
      if out.length < need then
        .error ("MOF CSV: not enough valid JP10Y points (need " ++ toString need ++
          ", got " ++ toString out.length ++ "). version=" ++ VERSION)
      else .ok out

/-- Zero-pad a natural number to `w` digits. -/
def padNat (w : ℕ) (n : ℕ) : String :=
  let s := toString n
  String.mk (List.replicate (w - s.data.length) '0' ++ s.data)

/-- Proleptic-Gregorian date for a day count since 1970-01-01 (the
civil-from-days computation underlying JavaScript date arithmetic). -/
def civilFromDays (z0 : Int) : Int × ℕ × ℕ :=
  let z := z0 + 719468
  let era := z.fdiv 146097
  let doe := (z - era * 146097).toNat
  let yoe := (doe - doe / 1460 + doe / 36524 - doe / 146096) / 365
  let y := (yoe : Int) + era * 400
  let doy := doe - (365 * yoe + yoe / 4 - yoe / 100)
  let mp := (5 * doy + 2) / 153
  let d := doy - (153 * mp + 2) / 5 + 1
  let m := if mp < 10 then mp + 3 else mp - 9
  (if m ≤ 2 then y + 1 else y, m, d)

/-- The source's `unixToISO`:
`new Date(sec * 1000).toISOString().slice(0, 10)`, modelled for timestamps
whose year has four digits (every timestamp this data source emits). -/
def unixToISO (sec : Int) : String :=
  let c := civilFromDays ((sec * 1000).fdiv 86400000)
  padNat 4 c.1.toNat ++ "-" ++ padNat 2 c.2.1 ++ "-" ++ padNat 2 c.2.2

/-- JavaScript `safeNumber(close[i])` for the decoded JSON `close` array of
numbers-or-nulls: a `null` entry converts to `0` (JS `Number(null) = 0`), an
out-of-range index is `undefined` and converts to `NaN`, hence is skipped. -/
def yahooVal (close : List (Option ℚ)) (i : ℕ) : Option ℚ :=
  if i < close.length then
    match close.getD i none with
    | none => some 0
    | some q => some q
  else none

/-- Acceptance test of one Yahoo chart index. -/
def yahooIdxPoint (ts : List Int) (close : List (Option ℚ)) (i : ℕ) : Option Point :=
  (yahooVal close i).map (fun v => ⟨unixToISO (ts.getD i 0), v⟩)

/-- Pure core of the source's `yahooLatestN` (src/unnamed/part_002 lines
213–264) on the decoded parallel `timestamp`/`close` arrays: walk from the
last index downward collecting valid points until `need` are found.  With
`hardFail = false`, every failure mode degrades to the empty sequence instead
of an error. -/
def yahooCore (symbolEncoded : String) (ts : List Int) (close : List (Option ℚ))
    (need : ℕ) (hardFail : Bool) : Except String (List Point) :=
  if ts.length = 0 ∨ close.length = 0 then
    if hardFail then .error ("Yahoo: empty timeseries for " ++ symbolEncoded)
    else .ok []
  else
    let out := collectN (yahooIdxPoint ts close) need (List.range ts.length).reverse 0
    if out.length < need then
      if hardFail then
        .error ("Yahoo: not enough points for " ++ symbolEncoded ++ " (need " ++
          toString need ++ ", got " ++ toString out.length ++ ")")
      else .ok []
    else .ok out

/-- The source's `calcRet5` (src/unnamed/part_002 lines 176–181).  The JS has
no length guard; callers only reach it with 6 points.  Division is exact
rational division; theorems about it carry a `≠ 0` hypothesis on the divisor
to stay in the region where this model agrees with JS number semantics. -/
def calcRet5 (valuesNewestFirst : List ℚ) : ℚ :=
  valuesNewestFirst.getD 0 0 / valuesNewestFirst.getD 5 0 - 1

/-- JavaScript `Map` built from date/value pairs and queried with `get`: the
last binding for a date wins. -/
def mapGet (l : List Point) (d : String) : Option ℚ :=
  (l.reverse.find? (fun p => p.date == d)).map Point.value

/-- One aligned row of `alignByDate`. -/
structure AlignedRow where
  date : String
  us : ℚ
  jp : ℚ
  spread : ℚ
deriving Repr, DecidableEq

/-- Join step of `alignByDate` for one candidate date (the source's
`u === undefined || j === undefined` guard sits in the wildcard arm). -/
def alignRowOf (us jp : List Point) (d : String) : Option AlignedRow :=
  match mapGet us d, mapGet jp d with
  | some u, some j => some ⟨d, u, j, u - j⟩
  | _, _ => none

/-- The source's `alignByDate` (src/app/api/macro/rate-diff/route.ts lines
259–279): iterate `us`'s dates in their given order, keep those present in
both maps, compute the spread `us − jp`, stop once `need` rows are collected,
and fail when fewer than `need` rows result. -/
def alignByDate (us jp : List Point) (need : ℕ) : Except String (List AlignedRow) :=
  let commonDates := (us.map Point.date).filter (fun d => (mapGet jp d).isSome)
  let aligned := collectN (alignRowOf us jp) need commonDates 0
  if aligned.length < need then
    .error ("Not enough common dates to align (need " ++ toString need ++ ", got " ++
      toString aligned.length ++ "). version=" ++ VERSION)
  else .ok aligned

/-- Specification-side join step for one element of `seriesA`: keep it exactly
when its date is present in `seriesB`, with spread `a − b`. -/
def specRowOf (jp : List Point) (p : Point) : Option AlignedRow :=
  match mapGet jp p.date with
  | some j => some ⟨p.date, p.value, j, p.value - j⟩
  | none => none

/-- Specification-side join, written from the claim's words: walk `seriesA` in
its existing order, keep exactly the dates present in both series, per-row
spread `a − b`. -/
def alignAll (us jp : List Point) : List AlignedRow := us.filterMap (specRowOf jp)

/-- Series A of the spec's §8 alignment scenario: dates `D5..D0`,
newest-first. -/
def sampleA : List Point :=
  [⟨"2024-01-06", 10⟩, ⟨"2024-01-05", 11⟩, ⟨"2024-01-04", 12⟩,
   ⟨"2024-01-03", 13⟩, ⟨"2024-01-02", 14⟩, ⟨"2024-01-01", 15⟩]

/-- Series B of the spec's §8 alignment scenario: dates `D5, D3, D1` only. -/
def sampleB : List Point :=
  [⟨"2024-01-06", 1⟩, ⟨"2024-01-04", 2⟩, ⟨"2024-01-02", 3⟩]

/-- JavaScript number including `NaN` (modelled as `none`): the only
operations the alerts-route label classifier applies to its number argument
are comparisons, and every comparison involving `NaN` is false. -/
abbrev JNum := Option ℚ

/-- JS `a <= q`, false on `NaN`. -/
def jle (a : JNum) (q : ℚ) : Bool :=
  match a with
  | some x => decide (x ≤ q)
  | none => false

/-- JS `a >= q`, false on `NaN`. -/
def jge (a : JNum) (q : ℚ) : Bool :=
  match a with
  | some x => decide (q ≤ x)
  | none => false

/-- Threshold of the alerts-route label classifier (`TH = 0.10`, 10 bp). -/
def TH : ℚ := 1 / 10

/-- The source's `labelFor` (src/app/api/macro/rate-diff-alerts/route.ts lines
7–14), lifted to `NaN`-aware numbers. -/
def labelFor (delta5 : JNum) (consecutive : String) : String :=
  if consecutive == "shrinking" && jle delta5 (-TH) then "円高警戒"
  else if consecutive == "widening" && jge delta5 TH then "円安継続"
  else if jle delta5 (-TH) then "円高警戒（弱）"
  else if jge delta5 TH then "円安継続（弱）"
  else "中立"

/-- The claim's rule order for the two-factor classifier, written from the
spec's words: strong-A, else weak-A, else strong-B, else weak-B, else
neutral, first matching rule winning. -/
def specLabelFor (delta5 : ℚ) (consecutive : String) : String :=
  if consecutive = "shrinking" ∧ delta5 ≤ -TH then "円高警戒"
  else if delta5 ≤ -TH then "円高警戒（弱）"
  else if consecutive = "widening" ∧ TH ≤ delta5 then "円安継続"
  else if TH ≤ delta5 then "円安継続（弱）"
  else "中立"

/-- Threshold constants of the extended classifier (src/unnamed/part_002 lines
143–148). -/
def TH_US10Y_STRONG : ℚ := -(15 / 100)

/-- Weak US 10-year threshold. -/
def TH_US10Y_WEAK : ℚ := -(10 / 100)

/-- Strong USDJPY 5-period-return threshold. -/
def TH_USDJPY_STRONG : ℚ := -(5 / 1000)

/-- Weak USDJPY 5-period-return threshold. -/
def TH_USDJPY_WEAK : ℚ := 0

/-- Strong JGBL futures delta threshold. -/
def TH_JGBL_STRONG : ℚ := 20 / 100

/-- Weak JGBL futures delta threshold. -/
def TH_JGBL_WEAK : ℚ := 0

/-- Qualifier appended to every label when the optional JGBL futures series is
unavailable.  The source file stores these literals in a garbled encoding; the
code points are reproduced exactly as they appear in the source. -/
def JGBL_NA_QUALIFIER : String := "‚ÄªÂÖàÁâ©‰∏çÊòé"

/-- Strong signal-A label of the extended classifier. -/
def LBL_STRONG_A : String := "ÂÜÜÈ´òË≠¶ÊàíÔºàÂº∑Ôºâ"

/-- Weak signal-A label of the extended classifier. -/
def LBL_WEAK_A : String := "ÂÜÜÈ´òË≠¶ÊàíÔºàÂº±Ôºâ"

/-- Signal-B label of the extended classifier. -/
def LBL_B : String := "ÂÜÜÂÆâÁ∂ôÁ∂ö"

/-- Neutral label of the extended classifier. -/
def LBL_NEUTRAL : String := "‰∏≠Á´ã"

/-- The source's extended multi-factor `label` (src/unnamed/part_002 lines
266–289): the optional futures delta is `none` exactly when the JGBL series
was unavailable, and every label emitted in that case carries the
unavailability qualifier. -/
def labelX (usDelta5 : ℚ) (usCons : String) (fxRet5 : ℚ) (jgblDelta5 : Option ℚ) :
    String :=
  let usStrong := decide (usDelta5 ≤ TH_US10Y_STRONG) && (usCons == "shrinking")
  let fxStrong := decide (fxRet5 ≤ TH_USDJPY_STRONG)
  let jbStrong :=
    match jgblDelta5 with
    | some j => decide (TH_JGBL_STRONG ≤ j)
    | none => false
  if usStrong && fxStrong && (jbStrong || jgblDelta5.isNone) then
    if jgblDelta5.isNone then LBL_STRONG_A ++ JGBL_NA_QUALIFIER else LBL_STRONG_A
  else
    let usWeak := decide (usDelta5 ≤ TH_US10Y_WEAK)
    let fxWeak := decide (fxRet5 ≤ TH_USDJPY_WEAK)
    let jbWeak :=
      match jgblDelta5 with
      | some j => decide (TH_JGBL_WEAK ≤ j)
      | none => false
    if usWeak && (fxWeak || jbWeak || jgblDelta5.isNone) then
      if jgblDelta5.isNone then LBL_WEAK_A ++ JGBL_NA_QUALIFIER else LBL_WEAK_A
    else if decide ((10 : ℚ) / 100 ≤ usDelta5) && decide ((5 : ℚ) / 1000 ≤ fxRet5) &&
        (match jgblDelta5 with
         | some j => decide (j ≤ -(20 / 100))
         | none => true) then
      if jgblDelta5.isNone then LBL_B ++ JGBL_NA_QUALIFIER else LBL_B
    else if jgblDelta5.isNone then LBL_NEUTRAL ++ JGBL_NA_QUALIFIER else LBL_NEUTRAL

/-- Report core produced by the orchestrator of src/unnamed/part_002's `GET`. -/
structure RateReport where
  label : String
  jgblAvailable : Bool
deriving Repr, DecidableEq

/-- Pure core of the orchestration in src/unnamed/part_002's `GET` (lines
297–345) after the three fetches: the US trend, the FX 5-period return, the
optional JGBL trend (computed only when at least 6 JGBL points arrived; the
flag mirrors the response's `helpers.jgbl.available`), and the extended
label. -/
def pipelineCore (us10y usdjpy jgbl : List Point) : Except String RateReport :=
  match calcTrend5 (us10y.map Point.value) with
  | .error e => .error e
  | .ok usTrend =>
    let fxRet := calcRet5 (usdjpy.map Point.value)
    let jgblTrend : Option TrendResult :=
      if 6 ≤ jgbl.length then (calcTrend5 (jgbl.map Point.value)).toOption else none
    let lbl := labelX usTrend.delta5 usTrend.consecutive fxRet
      (jgblTrend.map TrendResult.delta5)
    .ok ⟨lbl, decide (6 ≤ jgbl.length)⟩

/-- Strictly newest-first: every later point's date is lexicographically (for
ISO-format dates: chronologically) smaller than every earlier one; this also
forces the dates to be pairwise distinct. -/
abbrev DateDesc (l : List Point) : Prop := l.Pairwise (fun p q => q.date.data < p.date.data)

/-- Strictly oldest-first (dates ascending). -/
abbrev DateAsc (l : List Point) : Prop := l.Pairwise (fun p q => p.date.data < q.date.data)

/-- CSV with a clean direct header row (after a metadata title line): located
by strategy 1. -/
def csvDirect : List String :=
  ["国債金利情報", "日付,1年,2年,5年,10年,20年", "2024/1/4,0.1,0.2,0.3,0.4,0.5"]

/-- CSV with only a two-row tenor/date structure (the header line has no
recognisable date label): located by strategy 2. -/
def csvTwoRow : List String :=
  ["基準日,1年,2年,5年,10年,20年", "2024/1/4,0.1,0.2,0.3,0.4,0.5"]

/-- CSV whose only 10-year label sits on a metadata-looking line directly above
a data row: strategies 1 and 2 skip it, strategy 3 infers it as the header. -/
def csvInfer : List String :=
  ["単位：10年,x1,x2,x3,x4,x5", "2024.1.4,1,2,3,4,5"]

/-- CSV matching none of the three strategies. -/
def csvNoHeader : List String := ["a,b", "c,d"]

/-- JavaScript `String.prototype.endsWith`, at the character-list level. -/
def strEndsWith (s suffix : String) : Bool := suffix.data.isSuffixOf s.data

/-- Six newest-first sample points (used to exercise the orchestrator). -/
def sixPts : List Point :=
  [⟨"2024-01-09", 6⟩, ⟨"2024-01-08", 5⟩, ⟨"2024-01-07", 4⟩,
   ⟨"2024-01-06", 3⟩, ⟨"2024-01-05", 2⟩, ⟨"2024-01-04", 1⟩]

/-! Helper lemmas. -/

theorem isJsWhitespace_of_digit {c : Char} (h : isDigitC c = true) :
    isJsWhitespace c = false := by
  simp only [isDigitC, decide_eq_true_eq] at h
  simp only [isJsWhitespace, decide_eq_false_iff_not]
  omega

theorem dropWhile_eq_self_of (p : Char → Bool) (l : List Char)
    (h : ∀ c ∈ l, p c = false) : l.dropWhile p = l := by
  cases l with
  | nil => rfl
  | cons c t => simp [List.dropWhile_cons, h c (by simp)]

theorem jsTrimL_eq_self {l : List Char} (h : ∀ c ∈ l, isJsWhitespace c = false) :
    jsTrimL l = l := by
  unfold jsTrimL
  rw [dropWhile_eq_self_of _ _ h,
    dropWhile_eq_self_of _ _ (fun c hc => h c (List.mem_reverse.mp hc)),
    List.reverse_reverse]

theorem spanDigits_append (ds : List Char) (hds : ∀ c ∈ ds, isDigitC c = true)
    (c : Char) (hc : isDigitC c = false) (rest : List Char) :
    spanDigits (ds ++ c :: rest) = (ds, c :: rest) := by
  induction ds with
  | nil => simp [spanDigits, hc]
  | cons a t ih =>
    have ha := hds a (by simp)
    simp [spanDigits, ha, ih (fun x hx => hds x (by simp [hx]))]

theorem spanDigits_all (ds : List Char) (hds : ∀ c ∈ ds, isDigitC c = true) :
    spanDigits ds = (ds, []) := by
  induction ds with
  | nil => rfl
  | cons a t ih =>
    simp [spanDigits, hds a (by simp), ih (fun x hx => hds x (by simp [hx]))]

/-! Claims about the date normalizer. -/

/-- C4 counterexample: the claim asserts `normalize("S49.9.24") = "1974-09-24"`,
but the source's `parseDateToISO` has no era-calendar branch and rejects the
era form. -/
theorem parseDateToISO_era_counterexample :
    ¬ (parseDateToISO "S49.9.24" = some "1974-09-24") := by decide

/-- C4 (amended): the date normalizer does not accept the era-calendar form
`<EraLetter><YY>.<MM>.<DD>`; the three era inputs named by the spec are all
rejected (`parseDateToISO` recognises only the three numeric-delimiter
patterns). -/
theorem parseDateToISO_rejects_era :
    parseDateToISO "S49.9.24" = none ∧ parseDateToISO "H1.5.7" = none ∧
      parseDateToISO "R1.5.1" = none := by decide

/-- C5 counterexample: the claim asserts that a month outside `[1,12]` or a day
outside `[1,31]` makes the normalizer fail, but `parseDateToISO` performs no
range validation and accepts `"2024-13-45"`. -/
theorem parseDateToISO_range_counterexample :
    parseDateToISO "2024-13-45" = some "2024-13-45" ∧ 12 < 13 ∧ 31 < 45 := by decide

/-- C5 (amended): `parseDateToISO` returns failure when no accepted pattern
matches, but performs no numeric range validation at all: every input matching
`^(\d{4})<sep>(\d{1,2})<sep>(\d{1,2})$` for a separator in `{-, /, .}` is
normalized to the zero-padded ISO shape, whatever the month and day values
are. -/
theorem parseDateToISO_no_range_validation
    (y m d : List Char) (sep : Char)
    (hy : y.length = 4) (hyd : ∀ c ∈ y, isDigitC c = true)
    (hm1 : 1 ≤ m.length) (hm2 : m.length ≤ 2) (hmd : ∀ c ∈ m, isDigitC c = true)
    (hd1 : 1 ≤ d.length) (hd2 : d.length ≤ 2) (hdd : ∀ c ∈ d, isDigitC c = true)
    (hsep : sep = '-' ∨ sep = '/' ∨ sep = '.') :
    parseDateToISO (String.mk (y ++ (sep :: (m ++ (sep :: d))))) =
      some (String.mk y ++ "-" ++ padStart2 (String.mk m) ++ "-" ++
        padStart2 (String.mk d)) := by
  have hsd : isDigitC sep = false := by
    rcases hsep with h | h | h <;> subst h <;> decide
  have hsw : isJsWhitespace sep = false := by
    rcases hsep with h | h | h <;> subst h <;> decide
  have hnws : ∀ c ∈ y ++ (sep :: (m ++ (sep :: d))), isJsWhitespace c = false := by
    intro c hc
    rcases List.mem_append.mp hc with hcy | hct
    · exact isJsWhitespace_of_digit (hyd c hcy)
    · rcases List.mem_cons.mp hct with rfl | hct2
      · exact hsw
      · rcases List.mem_append.mp hct2 with hcm | hct3
        · exact isJsWhitespace_of_digit (hmd c hcm)
        · rcases List.mem_cons.mp hct3 with rfl | hcd
          · exact hsw
          · exact isJsWhitespace_of_digit (hdd c hcd)
  have hspan1 : spanDigits (y ++ (sep :: (m ++ (sep :: d)))) =
      (y, sep :: (m ++ (sep :: d))) :=
    spanDigits_append y hyd sep hsd (m ++ (sep :: d))
  have hspan2 : spanDigits (m ++ (sep :: d)) = (m, sep :: d) :=
    spanDigits_append m hmd sep hsd d
  have hspan3 : spanDigits d = (d, []) := spanDigits_all d hdd
  have hymatch : matchSepYMD sep (y ++ (sep :: (m ++ (sep :: d)))) =
      some (String.mk y, String.mk m, String.mk d) := by
    simp only [matchSepYMD, hspan1, hspan2, hspan3]
    simp [hy, hm1, hm2, hd1, hd2]
  have hne : (y ++ (sep :: (m ++ (sep :: d)))).isEmpty = false := by
    cases y with
    | nil => simp at hy
    | cons a t => rfl
  unfold parseDateToISO
  simp only [show (String.mk (y ++ (sep :: (m ++ (sep :: d))))).data =
      y ++ (sep :: (m ++ (sep :: d))) from rfl, jsTrimL_eq_self hnws, hne,
    Bool.false_eq_true, if_false]
  rcases hsep with h | h | h
  · subst h
    simp [hymatch, Option.orElse]
  · subst h
    have hfail : matchSepYMD '-' (y ++ ('/' :: (m ++ ('/' :: d)))) = none := by
      simp only [matchSepYMD, hspan1]
      simp [hy]
    simp [hfail, hymatch, Option.orElse]
  · subst h
    have hfail1 : matchSepYMD '-' (y ++ ('.' :: (m ++ ('.' :: d)))) = none := by
      simp only [matchSepYMD, hspan1]
      simp [hy]
    have hfail2 : matchSepYMD '/' (y ++ ('.' :: (m ++ ('.' :: d)))) = none := by
      simp only [matchSepYMD, hspan1]
      simp [hy]
    simp [hfail1, hfail2, hymatch, Option.orElse]

/-- C5 witness: the general acceptance theorem applied at the out-of-range
input `"2024-13-45"`. -/
theorem parseDateToISO_no_range_validation_witness :
    parseDateToISO (String.mk ("2024".data ++ ('-' :: ("13".data ++ ('-' :: "45".data))))) =
      some (String.mk "2024".data ++ "-" ++ padStart2 (String.mk "13".data) ++ "-" ++
        padStart2 (String.mk "45".data)) :=
  parseDateToISO_no_range_validation "2024".data "13".data "45".data '-'
    (by decide) (by decide) (by decide) (by decide) (by decide) (by decide)
    (by decide) (by decide) (Or.inl rfl)

/-! Claims about the trend calculator. -/

/-- C1: on the spec's §8 vectors the trend calculator's delta and monotonicity
follow the spec's convention — `trend([5,4,3,2,1,0])` gives `delta = 5` and
the `consecutive` value realizing `Increasing`, `trend([0,1,2,3,4,5])` gives
`delta = -5` and the value realizing `Decreasing`, and every 6-value input on
which neither strict adjacent-pair chain holds is classified `mixed`,
realizing `Mixed`. -/
theorem trend5_monotonicity_convention :
    (∃ r, calcTrend5 [5, 4, 3, 2, 1, 0] = .ok r ∧ r.delta5 = 5 ∧
      monoOfConsecutive r.consecutive = Monotonicity.Increasing) ∧
    (∃ r, calcTrend5 [0, 1, 2, 3, 4, 5] = .ok r ∧ r.delta5 = -5 ∧
      monoOfConsecutive r.consecutive = Monotonicity.Decreasing) ∧
    (∀ vs : List ℚ, vs.length = 6 → chainLt vs = false → chainGt vs = false →
      ∃ r, calcTrend5 vs = .ok r ∧ r.consecutive = "mixed" ∧
        monoOfConsecutive r.consecutive = Monotonicity.Mixed) := by
  refine ⟨⟨⟨5, 0, 5, 1, "widening"⟩, ?_, by norm_num, by decide⟩,
    ⟨⟨0, 5, -5, -1, "shrinking"⟩, ?_, by norm_num, by decide⟩, ?_⟩
  · norm_num [calcTrend5, chainLt, chainGt]
  · norm_num [calcTrend5, chainLt, chainGt]
  · intro vs h6 hlt hgt
    exact ⟨⟨vs.getD 0 0, vs.getD 5 0, vs.getD 0 0 - vs.getD 5 0,
      (vs.getD 0 0 - vs.getD 5 0) / 5, "mixed"⟩,
      by simp [calcTrend5, h6, hlt, hgt], rfl, rfl⟩

/-- C1 witness: the `Mixed` clause of the convention theorem applied at the
non-monotone input `[1,0,0,0,0,0]`. -/
theorem trend5_monotonicity_convention_witness :
    ∃ r, calcTrend5 [1, 0, 0, 0, 0, 0] = .ok r ∧ r.consecutive = "mixed" ∧
      monoOfConsecutive r.consecutive = Monotonicity.Mixed :=
  trend5_monotonicity_convention.2.2 [1, 0, 0, 0, 0, 0] (by norm_num)
    (by norm_num [chainLt]) (by norm_num [chainGt])

/-- C6 counterexample: the claim says the trend calculator fails unless given
exactly 6 values, but `calcTrend5` succeeds on this 7-value input. -/
theorem calcTrend5_seven_counterexample :
    calcTrend5 [1, 1, 1, 1, 1, 1, 1] = .ok ⟨1, 1, 0, 0, "mixed"⟩ ∧
      ([1, 1, 1, 1, 1, 1, 1] : List ℚ).length ≠ 6 := by
  refine ⟨?_, by norm_num⟩
  norm_num [calcTrend5, chainLt, chainGt]

/-- C6 (amended): `calcTrend5` fails with the insufficient-points error iff it
is given fewer than 6 newest-first values; on 6 or more it succeeds with
`latest = values[0]`, `prev5 = values[5]`, `delta5 = values[0] - values[5]`
and `avgDaily = delta5 / 5`. -/
theorem calcTrend5_at_least_six (vs : List ℚ) :
    (vs.length < 6 → calcTrend5 vs =
      .error ("Need at least 6 points for 5D trend, got " ++ toString vs.length)) ∧
    (6 ≤ vs.length → ∃ r, calcTrend5 vs = .ok r ∧ r.latest = vs.getD 0 0 ∧
      r.prev5 = vs.getD 5 0 ∧ r.delta5 = vs.getD 0 0 - vs.getD 5 0 ∧
      r.avgDaily = r.delta5 / 5) := by
  constructor
  · intro h
    simp [calcTrend5, h]
  · intro h
    exact ⟨⟨vs.getD 0 0, vs.getD 5 0, vs.getD 0 0 - vs.getD 5 0,
      (vs.getD 0 0 - vs.getD 5 0) / 5,
      if chainLt vs then "shrinking" else if chainGt vs then "widening" else "mixed"⟩,
      by rw [calcTrend5, if_neg (by omega)], rfl, rfl, rfl, rfl⟩

/-- C6 witness: the amended theorem applied on both sides — failure at a
2-value input, success with the stated formulas at a 6-value input. -/
theorem calcTrend5_at_least_six_witness :
    calcTrend5 [1, 2] =
      .error ("Need at least 6 points for 5D trend, got " ++ toString ([1, 2] : List ℚ).length) ∧
    (∃ r, calcTrend5 [9, 0, 0, 0, 0, 4] = .ok r ∧
      r.latest = ([9, 0, 0, 0, 0, 4] : List ℚ).getD 0 0 ∧
      r.prev5 = ([9, 0, 0, 0, 0, 4] : List ℚ).getD 5 0 ∧
      r.delta5 = ([9, 0, 0, 0, 0, 4] : List ℚ).getD 0 0 - ([9, 0, 0, 0, 0, 4] : List ℚ).getD 5 0 ∧
      r.avgDaily = r.delta5 / 5) :=
  ⟨(calcTrend5_at_least_six [1, 2]).1 (by norm_num),
    (calcTrend5_at_least_six [9, 0, 0, 0, 0, 4]).2 (by norm_num)⟩

/-! Claims about the two-factor label classifier. -/

/-- C2: for every real (non-`NaN`) delta and every `consecutive` string the
source's `labelFor`, with its fixed threshold `T = 0.10`, computes exactly the
classification given by the claim's rule order (strong-A; else weak-A; else
strong-B; else weak-B; else neutral, first match winning). -/
theorem labelFor_matches_spec_order (d : ℚ) (c : String) :
    labelFor (some d) c = specLabelFor d c := by
  have hTH : (0 : ℚ) < TH := by norm_num [TH]
  by_cases hs : c = "shrinking" <;> by_cases hw : c = "widening"
  · rw [hs] at hw
    exact absurd hw (by decide)
  all_goals
    by_cases h1 : d ≤ -TH <;> by_cases h2 : TH ≤ d <;>
      first
      | (exfalso; linarith)
      | simp [labelFor, specLabelFor, jle, jge, hs, hw, h1, h2]

/-- C10: `labelFor` is total — for every delta including `NaN` (the `none`
value, which a missing or malformed upstream trend field coerces to via JS
`Number`) and for every `consecutive` string whatsoever, it returns one of the
five labels; and on `NaN` both threshold comparisons are false, so the result
is always the neutral label. -/
theorem labelFor_total :
    (∀ (d : JNum) (c : String),
      labelFor d c ∈ ["円高警戒", "円安継続", "円高警戒（弱）", "円安継続（弱）", "中立"]) ∧
    (∀ c : String, labelFor none c = "中立") := by
  constructor
  · intro d c
    unfold labelFor
    split_ifs <;> simp
  · intro c
    simp [labelFor, jle, jge]

/-! Claims about the aligner. -/

theorem collectN_eq_take {α β : Type} (f : α → Option β) (need : ℕ) :
    ∀ (l : List α) (cnt : ℕ), cnt < need →
      collectN f need l cnt = (l.filterMap f).take (need - cnt) := by
  intro l
  induction l with
  | nil =>
    intro cnt _
    simp [collectN]
  | cons a as ih =>
    intro cnt h
    cases hfa : f a with
    | none => simp [collectN, hfa, List.filterMap_cons, ih cnt h]
    | some b =>
      by_cases hc : need ≤ cnt + 1
      · have h1 : need - cnt = 1 := by omega
        simp [collectN, hfa, hc, List.filterMap_cons, h1]
      · have h1 : cnt + 1 < need := by omega
        have h2 : need - cnt = (need - (cnt + 1)) + 1 := by omega
        simp [collectN, hfa, hc, List.filterMap_cons, ih (cnt + 1) h1, h2]

theorem mapGet_cons_self {p : Point} {rest : List Point}
    (h : p.date ∉ rest.map Point.date) : mapGet (p :: rest) p.date = some p.value := by
  unfold mapGet
  rw [List.reverse_cons, List.find?_append]
  have hnone : rest.reverse.find? (fun q => q.date == p.date) = none := by
    rw [List.find?_eq_none]
    intro q hq
    simp only [beq_iff_eq]
    intro hqd
    exact h (hqd ▸ List.mem_map_of_mem Point.date (List.mem_reverse.mp hq))
  simp [hnone]

theorem mapGet_cons_ne {p : Point} {rest : List Point} {d : String}
    (h : d ≠ p.date) : mapGet (p :: rest) d = mapGet rest d := by
  unfold mapGet
  rw [List.reverse_cons, List.find?_append]
  have hbe : (p.date == d) = false := beq_eq_false_iff_ne.mpr (Ne.symm h)
  have hone : List.find? (fun q => q.date == d) [p] = none := by
    simp [List.find?, hbe]
  cases hf : rest.reverse.find? (fun q => q.date == d) with
  | none => simp [hone, hf]
  | some q => simp [hf]

theorem mapGet_of_mem :
    ∀ us : List Point, (us.map Point.date).Nodup →
      ∀ p ∈ us, mapGet us p.date = some p.value := by
  intro us
  induction us with
  | nil =>
    intro _ p hp
    cases hp
  | cons q t ih =>
    intro hnd p hp
    rw [List.map_cons, List.nodup_cons] at hnd
    have hnd2 := hnd
    rcases List.mem_cons.mp hp with rfl | hpt
    · exact mapGet_cons_self hnd2.1
    · have hne : p.date ≠ q.date := by
        intro he
        exact hnd2.1 (he ▸ List.mem_map_of_mem Point.date hpt)
      rw [mapGet_cons_ne hne]
      exact ih hnd2.2 p hpt

theorem commonDates_filterMap (jp usFix : List Point) :
    ∀ us : List Point, (∀ p ∈ us, mapGet usFix p.date = some p.value) →
      ((us.map Point.date).filter (fun d => (mapGet jp d).isSome)).filterMap
        (alignRowOf usFix jp) = us.filterMap (specRowOf jp) := by
  intro us
  induction us with
  | nil =>
    intro _
    rfl
  | cons p t ih =>
    intro hagree
    have hp : mapGet usFix p.date = some p.value := hagree p (by simp)
    have ht : ∀ q ∈ t, mapGet usFix q.date = some q.value :=
      fun q hq => hagree q (by simp [hq])
    cases hjp : mapGet jp p.date with
    | none =>
      simp [List.filter_cons, List.filterMap_cons, specRowOf, hjp, ih ht]
    | some j =>
      simp [List.filter_cons, List.filterMap_cons, alignRowOf, specRowOf, hp, hjp, ih ht]

/-- C3: the aligner iterates `seriesA`'s dates in their existing order, keeps
exactly the dates present in both series, computes the per-row spread `a − b`,
stops once `minCount` rows are collected and fails (with the
insufficient-overlap error) when fewer common dates exist — stated as the
equivalence with the specification-side join `alignAll`, plus the spec's §8
scenario: `align(A, B, 3)` returns exactly the rows for `D5, D3, D1` in that
order and `align(A, B, 4)` fails. -/
theorem alignByDate_spec :
    (∀ (us jp : List Point) (need : ℕ), 1 ≤ need → (us.map Point.date).Nodup →
      alignByDate us jp need =
        if need ≤ (alignAll us jp).length then .ok ((alignAll us jp).take need)
        else .error ("Not enough common dates to align (need " ++ toString need ++
          ", got " ++ toString (alignAll us jp).length ++ "). version=" ++ VERSION)) ∧
    alignByDate sampleA sampleB 3 =
      .ok [⟨"2024-01-06", 10, 1, 9⟩, ⟨"2024-01-04", 12, 2, 10⟩, ⟨"2024-01-02", 14, 3, 11⟩] ∧
    alignByDate sampleA sampleB 4 =
      .error ("Not enough common dates to align (need 4, got 3). version=" ++ VERSION) := by
  have hgen : ∀ (us jp : List Point) (need : ℕ), 1 ≤ need →
      (us.map Point.date).Nodup →
      alignByDate us jp need =
        if need ≤ (alignAll us jp).length then .ok ((alignAll us jp).take need)
        else .error ("Not enough common dates to align (need " ++ toString need ++
          ", got " ++ toString (alignAll us jp).length ++ "). version=" ++ VERSION) := by
    intro us jp need hneed hnd
    simp only [alignByDate]
    rw [collectN_eq_take _ need _ 0 (by omega), Nat.sub_zero,
      commonDates_filterMap jp us us (mapGet_of_mem us hnd)]
    rw [show us.filterMap (specRowOf jp) = alignAll us jp from rfl]
    by_cases hlen : need ≤ (alignAll us jp).length
    · rw [if_pos hlen, if_neg]
      simp only [List.length_take]
      omega
    · have hl : (alignAll us jp).length < need := by omega
      rw [if_neg hlen, if_pos (by simp only [List.length_take]; omega)]
      rw [List.take_of_length_le (by omega)]
  have hAll : alignAll sampleA sampleB =
      [⟨"2024-01-06", 10, 1, 10 - 1⟩, ⟨"2024-01-04", 12, 2, 12 - 2⟩,
        ⟨"2024-01-02", 14, 3, 14 - 3⟩] := by
    simp [alignAll, sampleA, sampleB, specRowOf, mapGet, List.find?_cons,
      List.filterMap_cons, List.reverse_cons]
  refine ⟨hgen, ?_, ?_⟩
  · rw [hgen sampleA sampleB 3 (by norm_num) (by decide), hAll]
    rw [if_pos (by norm_num)]
    norm_num
  · rw [hgen sampleA sampleB 4 (by norm_num) (by decide), hAll]
    rw [if_neg (by norm_num)]
    congr 1

/-- C3 witness: the characterization clause applied at the §8 scenario. -/
theorem alignByDate_spec_witness :
    alignByDate sampleA sampleB 3 =
      if 3 ≤ (alignAll sampleA sampleB).length then .ok ((alignAll sampleA sampleB).take 3)
      else .error ("Not enough common dates to align (need " ++ toString 3 ++
        ", got " ++ toString (alignAll sampleA sampleB).length ++ "). version=" ++ VERSION) :=
  alignByDate_spec.1 sampleA sampleB 3 (by norm_num) (by decide)

/-! Claims about the header locator. -/

/-- C7: the header locator reads at most the first 200 lines (its result on
any line list equals its result on the 200-line prefix), tries the three
strategies in order with the first success winning (witnessed by one scenario
per strategy, together with the failure of the earlier strategies on the
later scenarios), and on total failure throws the diagnostic carrying the
first 20 lines. -/
theorem detectHeader_strategies :
    (∀ lines : List String, detectHeader lines = detectHeader (lines.take 200)) ∧
    detectHeader csvDirect = .ok ⟨1, ["日付", "1年", "2年", "5年", "10年", "20年"], 0, 4⟩ ∧
    (detectHeader csvTwoRow = .ok ⟨0, ["基準日", "1年", "2年", "5年", "10年", "20年"], 0, 4⟩ ∧
      strat1 0 (csvTwoRow.take 200) = none) ∧
    (detectHeader csvInfer = .ok ⟨0, ["単位：10年", "x1", "x2", "x3", "x4", "x5"], 0, 0⟩ ∧
      strat1 0 (csvInfer.take 200) = none ∧ strat2 0 (csvInfer.take 200) = none) ∧
    detectHeader csvNoHeader =
      .error ("MOF CSV: header row not found. version=" ++ VERSION ++ ". head20=a,b\\nc,d") := by
  refine ⟨?_, rfl, ⟨rfl, rfl⟩, ⟨rfl, rfl, rfl⟩, rfl⟩
  intro lines
  unfold detectHeader headDiag
  simp [List.take_take]

/-! Claims about the series fetchers. -/

theorem collectN_sublist {α β : Type} (f : α → Option β) (need : ℕ) :
    ∀ (l : List α) (cnt : ℕ), List.Sublist (collectN f need l cnt) (l.filterMap f) := by
  intro l
  induction l with
  | nil =>
    intro cnt
    simp [collectN]
  | cons a as ih =>
    intro cnt
    cases hfa : f a with
    | none =>
      simp only [collectN, hfa, List.filterMap_cons]
      exact ih cnt
    | some b =>
      simp only [collectN, hfa, List.filterMap_cons]
      by_cases hc : need ≤ cnt + 1
      · rw [if_pos hc]
        exact (List.nil_sublist _).cons₂ b
      · rw [if_neg hc]
        exact (ih (cnt + 1)).cons₂ b

theorem pairwise_filterMap_key {α : Type} (key : α → String) (f : α → Option Point)
    (hf : ∀ a p, f a = some p → p.date = key a) :
    ∀ l : List α, l.Pairwise (fun a b => (key b).data < (key a).data) →
      (l.filterMap f).Pairwise (fun p q => q.date.data < p.date.data) := by
  intro l
  induction l with
  | nil =>
    intro _
    simp
  | cons a t ih =>
    intro h
    rw [List.pairwise_cons] at h
    rw [List.filterMap_cons]
    cases hfa : f a with
    | none => exact ih h.2
    | some p =>
      rw [List.pairwise_cons]
      refine ⟨?_, ih h.2⟩
      intro q hq
      obtain ⟨b, hb, hfb⟩ := List.mem_filterMap.mp hq
      rw [hf b q hfb, hf a p hfa]
      exact h.1 b hb

theorem obsToPoint_date {o : FredObs} {p : Point} (h : obsToPoint o = some p) :
    p.date = o.date := by
  unfold obsToPoint at h
  cases hs : safeNumber o.value with
  | none =>
    rw [hs] at h
    cases h
  | some v =>
    rw [hs] at h
    simp only [Option.map_some'] at h
    rw [← Option.some.inj h]

/-- C8 counterexample: the claim asserts that every payload a fetcher accepts
yields a strictly newest-first sequence, but `fredCore` accepts this
date-ascending payload unchanged: the returned points are in ascending date
order, which is not strictly newest-first. -/
theorem fredCore_order_counterexample :
    fredCore "DGS10" [⟨"2024-01-01", "1"⟩, ⟨"2024-01-02", "2"⟩] 2 =
      .ok [⟨"2024-01-01", 1⟩, ⟨"2024-01-02", 2⟩] ∧
    ¬ DateDesc [⟨"2024-01-01", (1 : ℚ)⟩, ⟨"2024-01-02", 2⟩] := by
  refine ⟨?_, by decide⟩
  have h : fredCore "DGS10" [⟨"2024-01-01", "1"⟩, ⟨"2024-01-02", "2"⟩] 2 =
      .ok [⟨"2024-01-01", (1 : ℚ) * ((1 : ℕ) : ℚ)⟩,
        ⟨"2024-01-02", (1 : ℚ) * ((2 : ℕ) : ℚ)⟩] := rfl
  rw [h]
  norm_num

/-- C8 (amended): each fetcher core guarantees, on success, at least the
requested number of points (for the Yahoo fetcher: in hard-fail mode — its
soft mode degrades to the empty sequence, see C9), with values finite by
construction (`safeNumber` filters `NaN`/infinite values); the strictly
newest-first, duplicate-free ordering is guaranteed only conditionally on the
upstream payload being ordered — FRED observations date-descending, MOF data
rows date-ascending top-to-bottom, Yahoo timestamps mapping to ascending
calendar dates — because none of the fetchers checks the order itself. -/
theorem fetcher_invariants_amended :
    (∀ (sid : String) (obs : List FredObs) (need : ℕ) (out : List Point),
        fredCore sid obs need = .ok out →
        need ≤ out.length ∧
        (obs.Pairwise (fun a b => b.date.data < a.date.data) → DateDesc out)) ∧
    (∀ (csv : String) (need : ℕ) (r : HeaderResult) (out : List Point),
        detectHeader (mofLines csv) = .ok r →
        mofCore csv need = .ok out →
        need ≤ out.length ∧
        (DateAsc (((mofLines csv).drop (r.headerIndex + 1)).filterMap
            (rowToPoint r.dateIdx r.tenIdx)) → DateDesc out)) ∧
    (∀ (sym : String) (ts : List Int) (close : List (Option ℚ)) (need : ℕ)
        (hf : Bool) (out : List Point),
        yahooCore sym ts close need hf = .ok out →
        (hf = true → need ≤ out.length) ∧
        (DateAsc ((List.range ts.length).filterMap (yahooIdxPoint ts close)) →
          DateDesc out)) := by
  refine ⟨?_, ?_, ?_⟩
  · intro sid obs need out hok
    simp only [fredCore] at hok
    split at hok
    · simp at hok
    · rename_i hlen
      have hout := Except.ok.inj hok
      subst hout
      refine ⟨by omega, ?_⟩
      intro hord
      exact (pairwise_filterMap_key FredObs.date obsToPoint
        (fun a p hp => obsToPoint_date hp) obs hord).sublist
        (collectN_sublist obsToPoint need obs 0)
  · intro csv need r out hdet hok
    simp only [mofCore, hdet] at hok
    split at hok
    · simp at hok
    · split at hok
      · simp at hok
      · rename_i hten hlen
        have hout := Except.ok.inj hok
        subst hout
        refine ⟨by omega, ?_⟩
        intro hord
        have hsub := collectN_sublist (rowToPoint r.dateIdx r.tenIdx) need
          (((mofLines csv).drop (r.headerIndex + 1)).reverse) 0
        rw [List.filterMap_reverse] at hsub
        have hdesc : DateDesc ((((mofLines csv).drop (r.headerIndex + 1)).filterMap
            (rowToPoint r.dateIdx r.tenIdx)).reverse) := by
          rw [DateDesc, List.pairwise_reverse]
          exact hord
        exact hdesc.sublist hsub
  · intro sym ts close need hf out hok
    simp only [yahooCore] at hok
    split at hok
    · split at hok
      · simp at hok
      · rename_i hempty hfF
        have hout := Except.ok.inj hok
        subst hout
        constructor
        · intro hft
          rw [hft] at hfF
          simp at hfF
        · intro _
          simp [DateDesc]
    · split at hok
      · split at hok
        · simp at hok
        · rename_i hne hlen hfF
          have hout := Except.ok.inj hok
          subst hout
          constructor
          · intro hft
            rw [hft] at hfF
            simp at hfF
          · intro _
            simp [DateDesc]
      · rename_i hne hlen
        have hout := Except.ok.inj hok
        subst hout
        refine ⟨fun _ => by omega, ?_⟩
        intro hord
        have hsub := collectN_sublist (yahooIdxPoint ts close) need
          (List.range ts.length).reverse 0
        rw [List.filterMap_reverse] at hsub
        have hdesc : DateDesc (((List.range ts.length).filterMap
            (yahooIdxPoint ts close)).reverse) := by
          rw [DateDesc, List.pairwise_reverse]
          exact hord
        exact hdesc.sublist hsub

/-- C8 witness: the amended theorem applied to one concrete accepting run of
each fetcher core, with every ordering hypothesis discharged. -/
theorem fetcher_invariants_amended_witness :
    (2 ≤ ([⟨"2024-01-02", (1 : ℚ) * ((2 : ℕ) : ℚ)⟩,
        ⟨"2024-01-01", (1 : ℚ) * ((1 : ℕ) : ℚ)⟩] : List Point).length ∧
      DateDesc [⟨"2024-01-02", (1 : ℚ) * ((2 : ℕ) : ℚ)⟩,
        ⟨"2024-01-01", (1 : ℚ) * ((1 : ℕ) : ℚ)⟩]) ∧
    (1 ≤ ([⟨"2024-01-04", (1 : ℚ) * ((3 : ℕ) : ℚ)⟩] : List Point).length ∧
      DateDesc [⟨"2024-01-04", (1 : ℚ) * ((3 : ℕ) : ℚ)⟩]) ∧
    (2 ≤ ([⟨"1970-01-03", (2 : ℚ)⟩, ⟨"1970-01-02", (1 : ℚ)⟩] : List Point).length ∧
      DateDesc [⟨"1970-01-03", (2 : ℚ)⟩, ⟨"1970-01-02", (1 : ℚ)⟩]) := by
  refine ⟨?_, ?_, ?_⟩
  · have h := fetcher_invariants_amended.1 "DGS10"
      [⟨"2024-01-02", "2"⟩, ⟨"2024-01-01", "1"⟩] 2
      [⟨"2024-01-02", (1 : ℚ) * ((2 : ℕ) : ℚ)⟩,
        ⟨"2024-01-01", (1 : ℚ) * ((1 : ℕ) : ℚ)⟩] rfl
    exact ⟨h.1, h.2 (by decide)⟩
  · have h := fetcher_invariants_amended.2.1 "基準日,1年,2年,5年,10年,20年\n2024/1/4,0,1,2,3,4" 1
      ⟨0, ["基準日", "1年", "2年", "5年", "10年", "20年"], 0, 4⟩
      [⟨"2024-01-04", (1 : ℚ) * ((3 : ℕ) : ℚ)⟩] rfl rfl
    exact ⟨h.1, h.2 (by decide)⟩
  · have h := fetcher_invariants_amended.2.2 "JPY=X" [86400, 172800]
      [some 1, some 2] 2 true
      [⟨"1970-01-03", (2 : ℚ)⟩, ⟨"1970-01-02", (1 : ℚ)⟩] rfl
    exact ⟨h.1 rfl, h.2 (by decide)⟩

/-! Claims about the optional-source degradation. -/

theorem labelX_none_qualifier (a : ℚ) (c : String) (f : ℚ) :
    strEndsWith (labelX a c f none) JGBL_NA_QUALIFIER = true := by
  simp only [labelX, Option.isNone_none]
  split_ifs <;> decide

/-- C9: when the optional JGBL futures instrument yields no data, the
soft-fail fetcher (`hardFail = false`) returns a sequence instead of throwing
(in particular the empty-timeseries case returns the empty sequence), and the
pipeline still succeeds on an empty JGBL series, producing a label that
carries the futures-unavailable qualifier, with the report marking the series
unavailable. -/
theorem optional_jgbl_degradation
    (sym : String) (ts : List Int) (close : List (Option ℚ)) (need : ℕ)
    (us fx : List Point) (hus : 6 ≤ us.length) (_hfx : 6 ≤ fx.length) :
    (∃ l, yahooCore sym ts close need false = .ok l) ∧
    yahooCore sym [] close need false = .ok [] ∧
    (∃ rep, pipelineCore us fx [] = .ok rep ∧ rep.jgblAvailable = false ∧
      strEndsWith rep.label JGBL_NA_QUALIFIER = true) := by
  refine ⟨?_, rfl, ?_⟩
  · by_cases h : ts.length = 0 ∨ close.length = 0
    · refine ⟨[], ?_⟩
      simp only [yahooCore]
      rw [if_pos h]
      rfl
    · by_cases h2 : (collectN (yahooIdxPoint ts close) need
          (List.range ts.length).reverse 0).length < need
      · refine ⟨[], ?_⟩
        simp only [yahooCore]
        rw [if_neg h, if_pos h2]
        rfl
      · refine ⟨collectN (yahooIdxPoint ts close) need (List.range ts.length).reverse 0, ?_⟩
        simp only [yahooCore]
        rw [if_neg h, if_neg h2]
  · obtain ⟨r, hr, -, -, -, -⟩ := (calcTrend5_at_least_six (us.map Point.value)).2
      (by simpa using hus)
    refine ⟨⟨labelX r.delta5 r.consecutive (calcRet5 (fx.map Point.value)) none, false⟩,
      ?_, rfl, labelX_none_qualifier _ _ _⟩
    simp only [pipelineCore, hr]
    norm_num

/-- C9 witness: the degradation theorem applied at an empty JGBL payload and a
concrete 6-point US and FX series. -/
theorem optional_jgbl_degradation_witness :
    (∃ l, yahooCore "%5EJGBL" ([] : List Int) ([] : List (Option ℚ)) 6 false = .ok l) ∧
    yahooCore "%5EJGBL" ([] : List Int) ([] : List (Option ℚ)) 6 false = .ok [] ∧
    (∃ rep, pipelineCore sixPts sixPts [] = .ok rep ∧ rep.jgblAvailable = false ∧
      strEndsWith rep.label JGBL_NA_QUALIFIER = true) :=
  optional_jgbl_degradation "%5EJGBL" [] [] 6 sixPts sixPts (by decide) (by decide)

end JqApi
